import Mathlib

/-!
Shallow embedding of the NYC taxi dashboard (static d3 front end) in Lean 4,
together with proofs about the behaviour claimed in its specification.

Conventions used throughout:
* JavaScript strings are modelled as lists of characters (type Str below).
  A missing or empty string (both falsy in JS) is modelled by the empty list.
* JS Map objects are modelled as insertion-ordered association lists; JS Set
  objects as lists of distinct members or by deduplicated lists.
* Numeric trip counts are modelled as integers, ids and hours as naturals,
  intensity values as rationals.  All data touched by the proofs is integral,
  so this loses nothing.
-/

namespace TaxiViz

/-- JS strings are modelled as lists of characters. -/
abbrev Str := List Char

/-- The whitespace test used when modelling the JS String trim method.
The data handled by the dashboard only contains these whitespace forms. -/
def isSpaceChar (c : Char) : Bool :=
  c == ' ' || c == '\t' || c == '\n' || c == '\r'

/-- Model of the JS String trim method: drop whitespace from both ends. -/
def trimStr (s : Str) : Str :=
  ((s.dropWhile isSpaceChar).reverse.dropWhile isSpaceChar).reverse

/-- Model of the JS String toLowerCase method (the inputs that matter here are
ASCII, which Char.toLower handles). -/
def lowerStr (s : Str) : Str := s.map Char.toLower

/-- Model of the JS String includes method: does needle occur inside hay. -/
def hasSub : Str → Str → Bool
  | [], needle => needle.isEmpty
  | c :: t, needle => needle.isPrefixOf (c :: t) || hasSub t needle

/-- normalizeBorough from the boot script (README listing, lines 350-359).
Falsy input yields "Unknown"; otherwise the input is trimmed, lower-cased and
matched against borough substrings; an input matching no borough keyword is
returned unchanged. -/
def normalizeBorough (b : Str) : Str :=
  if b = [] then "Unknown".toList
  else
    let s := lowerStr (trimStr b)
    if hasSub s "manhattan".toList then "Manhattan".toList
    else if hasSub s "brooklyn".toList then "Brooklyn".toList
    else if hasSub s "queens".toList then "Queens".toList
    else if hasSub s "bronx".toList then "The Bronx".toList
    else if hasSub s "staten".toList then "Staten Island".toList
    else b

/-- App.utils.normalizeBorough from the shared-state script (clusters.js
listing, lines 601-610).  Falsy input yields the empty string; no trim is
applied before the substring tests; unmatched input is returned unchanged. -/
def normalizeBoroughUtil (b : Str) : Str :=
  if b = [] then []
  else
    let s := lowerStr b
    if hasSub s "manhattan".toList then "Manhattan".toList
    else if hasSub s "brooklyn".toList then "Brooklyn".toList
    else if hasSub s "queens".toList then "Queens".toList
    else if hasSub s "bronx".toList then "The Bronx".toList
    else if hasSub s "staten".toList then "Staten Island".toList
    else b

/-- The closed borough enum named by the specification. -/
def boroughEnum : List Str :=
  ["Manhattan".toList, "Brooklyn".toList, "Queens".toList,
   "The Bronx".toList, "Staten Island".toList, "Unknown".toList]

/-- Scan a character list for the first occurrence of the separator; when
found, return the part before it and the remainder after it.  This mirrors the
search performed by the JS String split method. -/
def findSep (sep : Str) : Str → Option (Str × Str)
  | [] => none
  | c :: rest =>
    if sep.isPrefixOf (c :: rest) then some ([], (c :: rest).drop sep.length)
    else
      match findSep sep rest with
      | none => none
      | some (b, a) => some (c :: b, a)

/-- Fuelled loop for the JS String split method. -/
def splitLoop (sep : Str) : Nat → Str → List Str
  | 0, s => [s]
  | fuel + 1, s =>
    match findSep sep s with
    | none => [s]
    | some (b, a) => b :: splitLoop sep fuel a

/-- Model of the JS String split method for a nonempty separator. -/
def splitStr (sep s : Str) : List Str := splitLoop sep (s.length + 1) s

/-- Order the two endpoint strings as the JS sort with a localeCompare
comparator does; modelled with the lexicographic order on character lists. -/
def sortPair (a b : Str) : Str × Str := if a ≤ b then (a, b) else (b, a)

/-- The corridor separator used by App.utils.canonicalCorridorKeyFromLabel. -/
def sepArrow : Str := "↔".toList

/-- The corridor separator literal as stored in the corridor search module
(part_000); the file carries a double-encoded UTF-8 arrow, so the literal is
the three characters below. -/
def sepArrowRaw : Str := ['â', '†', '”']

/-- App.utils.canonicalCorridorKeyFromLabel (clusters.js listing, lines
613-620): falsy label gives null; the label is split on the separator and each
part trimmed; anything other than exactly two parts gives null; otherwise the
two parts are sorted and joined with the separator. -/
def canonicalKeyUtil (label : Str) : Option Str :=
  if label = [] then none
  else
    match (splitStr sepArrow label).map trimStr with
    | [a, b] =>
      let p := sortPair a b
      some (p.1 ++ sepArrow ++ p.2)
    | _ => none

/-- canonicalCorridorKeyFromLabel from the corridor search module (part_000,
lines 26-37): falsy label gives null; a label that does not split into exactly
two parts is returned trimmed; otherwise the trimmed parts are sorted and
joined as "left sep right" with single spaces around the separator. -/
def canonicalKeyCorridor (label : Str) : Option Str :=
  if label = [] then none
  else
    match splitStr sepArrowRaw label with
    | [l, r] =>
      let p := sortPair (trimStr l) (trimStr r)
      some (p.1 ++ [' '] ++ sepArrowRaw ++ [' '] ++ p.2)
    | _ => some (trimStr label)

/-- Association-list lookup, the model of Map.get (first match wins, as JS
Maps hold each key once). -/
def alookup {κ α : Type} [DecidableEq κ] : List (κ × α) → κ → Option α
  | [], _ => none
  | (k', v) :: rest, k => if k' = k then some v else alookup rest k

/-- A normalized flow record (README listing, lines 430-447: ids, hour and
trip count are coerced to numbers and a missing, empty or negative flow
cluster id becomes null, so cluster ids are naturals here). -/
structure FlowRow where
  origin_zone : Nat
  destination_zone : Nat
  time_bin : Nat
  trip_count : Int
  flow_cluster_id : Option Nat
  deriving DecidableEq

/-- Upsert into an insertion-ordered association list, the model of the
read-modify-write pattern on a JS Map of numeric counters. -/
def cUpsert {κ : Type} [DecidableEq κ] : List (κ × Int) → κ → Int → List (κ × Int)
  | [], k, v => [(k, v)]
  | (k', v') :: rest, k, v =>
    if k' = k then (k', v' + v) :: rest else (k', v') :: cUpsert rest k v

/-- Per-partner accumulator built by renderODForPrimary (README listing,
lines 1234-1259). -/
structure ODAgg where
  otherId : Nat
  outCount : Int
  inCount : Int
  clusterCounts : List (Nat × Int)
  deriving DecidableEq

/-- Finalized per-partner entry (README listing, lines 1261-1276). -/
structure ODPairFinal where
  otherId : Nat
  outCount : Int
  inCount : Int
  total : Int
  corridorClusterId : Option Nat
  deriving DecidableEq

/-- Fold one relevant flow row into the byOther accumulator: out trips when
the origin is the primary, in trips when the destination is, plus the
per-cluster trip counter. -/
def applyRow (isOut : Bool) (tc : Int) (cid : Option Nat) (e : ODAgg) : ODAgg :=
  { otherId := e.otherId
    outCount := if isOut then e.outCount + tc else e.outCount
    inCount := if isOut then e.inCount else e.inCount + tc
    clusterCounts :=
      match cid with
      | none => e.clusterCounts
      | some c => cUpsert e.clusterCounts c tc }

/-- Update the entry for otherId in the insertion-ordered accumulator list,
creating a fresh zero entry at the end when absent (JS Map set). -/
def insertRow (otherId : Nat) (isOut : Bool) (tc : Int) (cid : Option Nat) :
    List ODAgg → List ODAgg
  | [] => [applyRow isOut tc cid ⟨otherId, 0, 0, []⟩]
  | e :: rest =>
    if e.otherId = otherId then applyRow isOut tc cid e :: rest
    else e :: insertRow otherId isOut tc cid rest

/-- The byOther aggregation of renderODForPrimary: filter the flow table to
the selected hour and rows touching the primary, then fold each row into the
partner keyed by the other endpoint (README listing, lines 1229-1259). -/
def pairsAllOf (flows : List FlowRow) (primaryId hour : Nat) : List ODAgg :=
  let relevant := flows.filter fun d =>
    d.time_bin == hour ∧ (d.origin_zone == primaryId ∨ d.destination_zone == primaryId)
  relevant.foldl
    (fun acc row =>
      let isOut := row.origin_zone == primaryId
      let otherId := if isOut then row.destination_zone else row.origin_zone
      insertRow otherId isOut row.trip_count row.flow_cluster_id acc)
    []

/-- Stable insertion of a cluster-count entry into a list sorted descending by
count, modelling the JS stable sort with a descending comparator. -/
def insDescPair (x : Nat × Int) : List (Nat × Int) → List (Nat × Int)
  | [] => [x]
  | y :: ys => if x.2 < y.2 then y :: insDescPair x ys else x :: y :: ys

/-- Sort cluster-count entries descending by count (stable). -/
def sortDescBySnd : List (Nat × Int) → List (Nat × Int)
  | [] => []
  | x :: xs => insDescPair x (sortDescBySnd xs)

/-- The dominant flow cluster of a partner: the head of the cluster counters
sorted descending by summed trips, null when no row carried a cluster id
(README listing, lines 1265-1275). -/
def dominantCluster (cc : List (Nat × Int)) : Option Nat :=
  match sortDescBySnd cc with
  | [] => none
  | (cid, _) :: _ => some cid

/-- Finalize one partner entry: total and dominant cluster. -/
def finalizePair (p : ODAgg) : ODPairFinal :=
  ⟨p.otherId, p.outCount, p.inCount, p.outCount + p.inCount,
   dominantCluster p.clusterCounts⟩

/-- The per-partner table renderODForPrimary computes for a primary zone and
hour before display filtering. -/
def renderODPairs (flows : List FlowRow) (primaryId hour : Nat) : List ODPairFinal :=
  (pairsAllOf flows primaryId hour).map finalizePair

/-- A zone id together with its connectivity degree (README listing, lines
462-465). -/
structure ZD where
  id : Nat
  degree : Nat
  deriving DecidableEq

/-- Destinations reached from z over all flow rows. -/
def partnersOut (flows : List FlowRow) (z : Nat) : List Nat :=
  flows.filterMap fun r =>
    if r.origin_zone = z then some r.destination_zone else none

/-- Origins reaching z over all flow rows. -/
def partnersIn (flows : List FlowRow) (z : Nat) : List Nat :=
  flows.filterMap fun r =>
    if r.destination_zone = z then some r.origin_zone else none

/-- The undirected connectivity degree of a zone: the number of distinct
partner zones over all flow rows, ignoring hour (the size of the connMap set
built in the README listing, lines 452-460). -/
def degreeOf (flows : List FlowRow) (z : Nat) : Nat :=
  ((partnersOut flows z) ++ (partnersIn flows z)).dedup.length

/-- Insert into a list sorted non-increasing by degree. -/
def insertDescZD (x : ZD) : List ZD → List ZD
  | [] => [x]
  | y :: ys => if x.degree ≤ y.degree then y :: insertDescZD x ys else x :: y :: ys

/-- Sort zone/degree pairs descending by degree (the JS sort with the
d3.descending comparator). -/
def sortZDDesc : List ZD → List ZD
  | [] => []
  | x :: xs => insertDescZD x (sortZDDesc xs)

/-- Math.ceil of n percent of nZones, computed exactly over the integers. -/
def ceilPct (n pct : Nat) : Nat := (n * pct + 99) / 100

/-- The display cap assigned to rank idx out of n zones (README listing,
lines 782-789): top 5 percent get 50, next to 10 percent 40, to 20 percent 30,
to 40 percent 20, and the remainder the flat default 20. -/
def capForIndex (n idx : Nat) : Nat :=
  if idx < ceilPct n 5 then 50
  else if idx < ceilPct n 10 then 40
  else if idx < ceilPct n 20 then 30
  else if idx < ceilPct n 40 then 20
  else 20

/-- Walk the ranked array with its index, assigning each zone its cap. -/
def capAssign (n : Nat) : Nat → List ZD → List (Nat × Nat)
  | _, [] => []
  | idx, e :: rest => (e.id, capForIndex n idx) :: capAssign n (idx + 1) rest

/-- zoneCapMap (README listing, lines 452-482 and 760-789): rank every
registry zone by undirected degree descending and assign the percentile-band
display cap. -/
def zoneCapMap (flows : List FlowRow) (zoneIds : List Nat) : List (Nat × Nat) :=
  let arr := sortZDDesc (zoneIds.map fun id => ⟨id, degreeOf flows id⟩)
  capAssign arr.length 0 arr

/-- A spatiotemporal row (hotmap.js: window.st entries).  d3.max skips
missing values, so the intensity is optional here; the cluster id keeps the
raw value, with -1 the DBSCAN noise designator. -/
structure STRow where
  locationID : Nat
  hour : Nat
  cluster_id : Option Int
  intensity_hour : Option ℚ
  deriving DecidableEq

/-- Model of d3.max over rationals: none on an empty input, the maximum of
the defined values otherwise. -/
def d3maxQ (l : List ℚ) : Option ℚ :=
  l.foldl
    (fun acc v =>
      match acc with
      | none => some v
      | some m => some (max m v))
    none

/-- maxIntensityHour (hotmap.js lines 149 and README listing line 398):
d3.max over the intensity column, with the falsy guard mapping an undefined
or zero maximum to 1. -/
def maxIntensityHour (st : List STRow) : ℚ :=
  match d3maxQ (st.filterMap (·.intensity_hour)) with
  | none => 1
  | some m => if m = 0 then 1 else m

/-- The 7-color sequential yellow-to-red d3 scheme (d3.schemeYlOrRd at 7). -/
def schemeYlOrRd7 : List String :=
  ["#ffffb2", "#fed976", "#feb24c", "#fd8d3c", "#fc4e2a", "#e31a1c", "#b10026"]

/-- A quantized color scale: a numeric domain cut into range.length equal
buckets, one per range entry. -/
structure QuantizeScale where
  domainLo : ℚ
  domainHi : ℚ
  range : List String
  deriving DecidableEq

/-- Number of buckets of a quantized scale: one per range color. -/
def QuantizeScale.bucketCount (s : QuantizeScale) : Nat := s.range.length

/-- hotColor (hotmap.js lines 150-152): a quantize scale over
domain 0 to maxIntensityHour whose range is the 7-color yellow-to-red scheme
with its first (lightest) color sliced off. -/
def hotColorScale (st : List STRow) : QuantizeScale :=
  ⟨0, maxIntensityHour st, schemeYlOrRd7.drop 1⟩

/-- A zone-boundary geometry feature, reduced to the properties the registry
join reads; empty lists model missing properties. -/
structure Feature where
  locationID : Nat
  zoneName : Str
  boroughRaw : Str
  deriving DecidableEq

/-- A row of the csvLookup table, with the borough already normalized
(README listing, lines 361-366). -/
structure LookupEntry where
  zone : Str
  borough : Str
  deriving DecidableEq

/-- A zone registry entry (README listing, lines 370-380). -/
structure ZoneInfo where
  id : Nat
  zone : Str
  borough : Str
  deriving DecidableEq

/-- Decimal rendering of a zone id. -/
def natToStr (n : Nat) : Str := (toString n).toList

/-- The synthesized placeholder name for a zone. -/
def zoneFallbackName (id : Nat) : Str := "Zone ".toList ++ natToStr id

/-- One idTo registry entry (README listing, lines 371-380): use the lookup
row when present; otherwise fall back to the embedded geometry name, or the
synthesized placeholder when that is empty, and normalize the geometry
borough field. -/
def idToEntry (csvLookup : List (Nat × LookupEntry)) (f : Feature) : ZoneInfo :=
  match alookup csvLookup f.locationID with
  | some lk => ⟨f.locationID, lk.zone, lk.borough⟩
  | none =>
    ⟨f.locationID,
     if f.zoneName ≠ [] then f.zoneName else zoneFallbackName f.locationID,
     normalizeBorough f.boroughRaw⟩

/-- A cluster time-series row after schema normalization (clusters.js lines
18-30). -/
structure TSRow where
  cluster_id : Int
  time_bin : Nat
  trip_count : Int
  deriving DecidableEq

/-- A point of the dense 24-hour series drawn by renderClusterDetail. -/
structure TSPoint where
  time_bin : Nat
  trip_count : Int
  deriving DecidableEq

/-- All rows of an area: union of the rows of its member clusters, looked up
in the clusterById grouping (clusters.js lines 254-261). -/
def allRowsOf (clusterById : List (Int × List TSRow)) (members : List Int) :
    List TSRow :=
  (members.map fun cid => (alookup clusterById cid).getD []).flatten

/-- Group rows by hour, summing trip counts in encounter order (the
d3.rollups call of clusters.js lines 264-271). -/
def rollupByHour (rows : List TSRow) : List (Nat × Int) :=
  rows.foldl (fun acc r => cUpsert acc r.time_bin r.trip_count) []

/-- The dense series of renderClusterDetail (clusters.js lines 273-281): one
point per hour 0..23, taking the grouped sum when present and 0 otherwise. -/
def seriesOf (clusterById : List (Int × List TSRow)) (members : List Int) :
    List TSPoint :=
  let grouped := rollupByHour (allRowsOf clusterById members)
  (List.range 24).map fun h => ⟨h, (alookup grouped h).getD 0⟩

/-- Total trips of a row list at a given hour. -/
def sumTripsAt (rows : List TSRow) (h : Nat) : Int :=
  ((rows.filter fun r => r.time_bin == h).map (·.trip_count)).sum

/-- A flow-corridor semantics entry, reduced to the label field read by the
corridor overview. -/
structure SemInfo where
  label : Option Str
  deriving DecidableEq

/-- A directed origin-destination aggregate of the corridor overview. -/
structure DirPair where
  originId : Nat
  destId : Nat
  total : Int
  deriving DecidableEq

/-- The text placed in the odSummary element by the corridor overview paths,
modelled symbolically. -/
inductive ODSummaryText where
  | noClustersFound (key : Option Str)
  | noTripsInCorridor (key : Option Str) (hour : Nat)
  | corridorOverview (key : Option Str) (hour : Nat) (nPairs nRows : Nat)
  deriving DecidableEq

/-- What a renderCorridorOverview call leaves on screen: the drawn edges and
the summary text.  The two early-return guards leave zero edges. -/
structure OverviewResult where
  edges : List DirPair
  summary : ODSummaryText
  deriving DecidableEq

/-- The cluster ids whose semantics label collapses to the canonical key
(README listing, lines 1564-1572). -/
def corridorClusterIdsOf (semantics : List (Nat × SemInfo)) (ck : Option Str) :
    List Nat :=
  semantics.filterMap fun p =>
    match p.2.label with
    | none => none
    | some lab =>
      if lab = [] then none
      else if canonicalKeyCorridor lab = ck then some p.1 else none

/-- Upsert a flow row into the directed-pair aggregation of the corridor
overview (README listing, lines 1600-1614). -/
def pairUpsert : List DirPair → Nat → Nat → Int → List DirPair
  | [], o, d, tc => [⟨o, d, tc⟩]
  | e :: rest, o, d, tc =>
    if e.originId == o && e.destId == d then
      ⟨e.originId, e.destId, e.total + tc⟩ :: rest
    else e :: pairUpsert rest o d tc

/-- renderCorridorOverview (README listing, lines 1550-1622), up to the drawn
edge list: canonicalize the requested key, collect the matching cluster ids,
return the no-clusters state when there are none, otherwise filter the flow
table to the hour and corridor and aggregate by directed pair. -/
def renderCorridorOverview (semantics : List (Nat × SemInfo))
    (flows : List FlowRow) (hour : Nat) (corridorKey : Str) : OverviewResult :=
  let ck := canonicalKeyCorridor corridorKey
  let cids := corridorClusterIdsOf semantics ck
  if cids = [] then ⟨[], .noClustersFound ck⟩
  else
    let relevant := flows.filter fun r =>
      r.time_bin == hour &&
        (match r.flow_cluster_id with
         | none => false
         | some c => cids.contains c)
    if relevant = [] then ⟨[], .noTripsInCorridor ck hour⟩
    else
      let pairs := relevant.foldl
        (fun acc r => pairUpsert acc r.origin_zone r.destination_zone r.trip_count) []
      ⟨pairs, .corridorOverview ck hour pairs.length relevant.length⟩

/-- The interaction state relevant to the auto-zoom flag protocol: the flag
itself, whether each panel has an animated zoom transition in flight whose
end and interrupt callbacks clear the flag, and the hover substate the
handlers would otherwise touch. -/
structure UIState where
  isAutoZooming : Bool
  hotPending : Bool
  odPending : Bool
  hoveredZone : Option Nat
  odTipVisible : Bool
  deriving DecidableEq

/-- Boot state: no flag, no transitions, no hover. -/
def initState : UIState := ⟨false, false, false, none, false⟩

/-- isAutoZooming = true (each zoom site sets the flag before starting the
transition). -/
def setFlag (s : UIState) : UIState :=
  ⟨true, s.hotPending, s.odPending, s.hoveredZone, s.odTipVisible⟩

/-- hotSvg.interrupt(): an active transition fires its interrupt callback,
which clears the flag (README listing, lines 808, 859). -/
def interruptHot (s : UIState) : UIState :=
  if s.hotPending then ⟨false, false, s.odPending, s.hoveredZone, s.odTipVisible⟩
  else s

/-- Start a hotSvg zoom transition carrying flag-clearing callbacks. -/
def startHot (s : UIState) : UIState :=
  ⟨s.isAutoZooming, true, s.odPending, s.hoveredZone, s.odTipVisible⟩

/-- odSvg.interrupt(): as interruptHot, for the right panel. -/
def interruptOd (s : UIState) : UIState :=
  if s.odPending then ⟨false, s.hotPending, false, s.hoveredZone, s.odTipVisible⟩
  else s

/-- Start an odSvg zoom transition carrying flag-clearing callbacks. -/
def startOd (s : UIState) : UIState :=
  ⟨s.isAutoZooming, s.hotPending, true, s.hoveredZone, s.odTipVisible⟩

/-- The events that drive the auto-zoom flag: the four code paths that set
the flag and start transitions, the d3 resolution of each panel transition
(normal end or interruption), and the hover handlers on OD nodes and
edges. -/
inductive UIEvent where
  | zoomToBoroughReset
  | zoomToBoroughArea
  | adjustOdZoomToFlows
  | overviewAutoZoom
  | hotTransitionEnd
  | hotTransitionInterrupt
  | odTransitionEnd
  | odTransitionInterrupt
  | odNodeMouseEnter (z : Nat)
  | odNodeMouseLeave
  | odEdgeMousemove
  | odEdgeMouseleave
  deriving DecidableEq

/-- The hover and mouse-move events of the OD map nodes and edges. -/
def isHoverEvent : UIEvent → Bool
  | .odNodeMouseEnter _ => true
  | .odNodeMouseLeave => true
  | .odEdgeMousemove => true
  | .odEdgeMouseleave => true
  | _ => false

/-- One step of the interaction system, transcribing the order of effects of
each handler in the source: zoomToBorough (README lines 795-895) sets the
flag then interrupts and restarts each panel transition; adjustOdZoomToFlows
(lines 1210-1218) and the overview auto-zoom (lines 1798-1806) do so for the
OD panel only; transition resolution fires the registered callback, clearing
the flag; every node and edge hover handler begins with an isAutoZooming
check and returns untouched when the flag is set (lines 976, 993, 1467,
1523, 1706, 1735). -/
def step (s : UIState) (e : UIEvent) : UIState :=
  match e with
  | .zoomToBoroughReset => startOd (interruptOd (startHot (interruptHot (setFlag s))))
  | .zoomToBoroughArea =>
    startOd (interruptOd (setFlag (startHot (interruptHot (setFlag s)))))
  | .adjustOdZoomToFlows => startOd (interruptOd (setFlag s))
  | .overviewAutoZoom => startOd (interruptOd (setFlag s))
  | .hotTransitionEnd => interruptHot s
  | .hotTransitionInterrupt => interruptHot s
  | .odTransitionEnd => interruptOd s
  | .odTransitionInterrupt => interruptOd s
  | .odNodeMouseEnter z =>
    if s.isAutoZooming then s
    else ⟨s.isAutoZooming, s.hotPending, s.odPending, some z, true⟩
  | .odNodeMouseLeave =>
    if s.isAutoZooming then s
    else ⟨s.isAutoZooming, s.hotPending, s.odPending, none, false⟩
  | .odEdgeMousemove =>
    if s.isAutoZooming then s
    else ⟨s.isAutoZooming, s.hotPending, s.odPending, s.hoveredZone, true⟩
  | .odEdgeMouseleave =>
    if s.isAutoZooming then s
    else ⟨s.isAutoZooming, s.hotPending, s.odPending, s.hoveredZone, false⟩

/-- Run a sequence of interaction events from a state. -/
def runEvents (s : UIState) (es : List UIEvent) : UIState := es.foldl step s

/-- The flag can only be set while some transition with flag-clearing
callbacks is in flight. -/
def goodState (s : UIState) : Prop :=
  s.isAutoZooming = true → (s.hotPending = true ∨ s.odPending = true)

/-- The two flow rows of end-to-end scenario 1. -/
def c2Flows : List FlowRow :=
  [⟨1, 2, 8, 50, some 3⟩, ⟨2, 1, 8, 30, some 3⟩]

/-- The spatiotemporal rows used to witness the degenerate-maximum default:
every intensity value is missing. -/
def c10Rows : List STRow :=
  [⟨10, 5, none, none⟩, ⟨11, 6, some 2, none⟩]

/-- A geometry feature with an embedded zone name and a raw borough outside
the borough enum. -/
def c5Feature : Feature := ⟨1, "Newark Airport".toList, "EWR".toList⟩

/-- C2: with flow rows origin 1 to 2 (50 trips) and 2 to 1 (30 trips), both
at hour 8 in flow cluster 3, the per-partner aggregation for primary zone 1
at hour 8 yields exactly one partner, zone 2, with outCount 50, inCount 30,
total 80 and dominant flow cluster 3. -/
theorem od_aggregation_scenario1 :
    renderODPairs c2Flows 1 8 = [⟨2, 50, 30, 80, some 3⟩] := by decide

/-- C3 counterexample: the hotspot fill scale does not have 7 buckets; the
source slices the first color off the 7-color scheme, leaving 6. -/
theorem hot_color_not_seven_buckets :
    (hotColorScale []).bucketCount ≠ 7 := by decide

/-- C3 amended: the hotspot fill color scale is a quantized scale with
exactly 6 buckets (the 7-color yellow-to-red scheme with its lightest color
dropped) over the domain 0 to maxIntensity, where maxIntensity is the
maximum intensity over all spatiotemporal rows (defaulted to 1 when absent
or zero). -/
theorem hot_color_six_buckets (st : List STRow) :
    (hotColorScale st).bucketCount = 6 ∧
      (hotColorScale st).domainLo = 0 ∧
      (hotColorScale st).domainHi = maxIntensityHour st :=
  ⟨rfl, rfl, rfl⟩

/-- C3 amended witness: the amended statement at a concrete row table. -/
theorem hot_color_six_buckets_witness :
    (hotColorScale c10Rows).bucketCount = 6 ∧
      (hotColorScale c10Rows).domainLo = 0 ∧
      (hotColorScale c10Rows).domainHi = maxIntensityHour c10Rows :=
  hot_color_six_buckets c10Rows

/-- C4 counterexample: normalizeBorough maps the input EWR, which matches no
borough substring, to itself rather than to Unknown, so its image is not
confined to the closed borough enum (the App.utils variant behaves the same
way on this input). -/
theorem normalize_borough_ewr_not_unknown :
    normalizeBorough "EWR".toList = "EWR".toList ∧
      "EWR".toList ∉ boroughEnum ∧
      normalizeBoroughUtil "EWR".toList = "EWR".toList := by decide

/-- C4 amended: normalizeBorough is not total onto the closed enum; every
output is either an enum value or the input returned unchanged.  Missing
input becomes Unknown in the boot-script variant and the empty string in the
App.utils variant; an input matching a borough substring becomes that
borough; any other input passes through unchanged. -/
theorem normalize_borough_range (b : Str) :
    (normalizeBorough b ∈ boroughEnum ∨ normalizeBorough b = b) ∧
      (normalizeBoroughUtil b ∈ boroughEnum ∨ normalizeBoroughUtil b = b ∨
        normalizeBoroughUtil b = []) := by
  constructor
  · unfold normalizeBorough
    dsimp only
    split_ifs <;> first | (left; decide) | (right; rfl)
  · unfold normalizeBoroughUtil
    dsimp only
    split_ifs <;>
      first | (left; decide) | (right; left; rfl) | (right; right; rfl)

/-- C5 counterexample: a zone absent from the lookup table whose geometry
feature carries its own embedded name is registered under that name, not
under the synthesized Zone-id placeholder. -/
theorem registry_name_not_zone_id :
    (idToEntry [] c5Feature).zone = "Newark Airport".toList ∧
      (idToEntry [] c5Feature).zone ≠ "Zone 1".toList := by decide

/-- C5 amended: for every zone id absent from the lookup table, the registry
entry takes the embedded name of the geometry feature when that is nonempty
and the synthesized placeholder Zone-id name otherwise, and its borough is
derived from the raw borough field of the feature via the same
substring-normalization used for lookup-sourced boroughs. -/
theorem registry_fallback (csvLookup : List (Nat × LookupEntry)) (f : Feature)
    (h : alookup csvLookup f.locationID = none) :
    (idToEntry csvLookup f).zone =
        (if f.zoneName ≠ [] then f.zoneName else zoneFallbackName f.locationID) ∧
      (idToEntry csvLookup f).borough = normalizeBorough f.boroughRaw := by
  unfold idToEntry
  rw [h]
  exact ⟨rfl, rfl⟩

/-- C5 amended witness: the fallback behaviour at a concrete feature with no
lookup row. -/
theorem registry_fallback_witness :
    alookup ([] : List (Nat × LookupEntry)) c5Feature.locationID = none ∧
      ((idToEntry [] c5Feature).zone =
          (if c5Feature.zoneName ≠ [] then c5Feature.zoneName
           else zoneFallbackName c5Feature.locationID) ∧
        (idToEntry [] c5Feature).borough = normalizeBorough c5Feature.boroughRaw) :=
  ⟨rfl, registry_fallback [] c5Feature rfl⟩

/-- C10: when the spatiotemporal table is empty or every intensity value is
missing, the computed maximum intensity defaults to 1, so the hotspot color
domain 0 to maxIntensity is never degenerate. -/
theorem max_intensity_defaults_to_one (st : List STRow)
    (h : st.filterMap (·.intensity_hour) = []) :
    maxIntensityHour st = 1 ∧ (0 : ℚ) < maxIntensityHour st := by
  have hd : d3maxQ (st.filterMap (·.intensity_hour)) = none := by rw [h]; rfl
  unfold maxIntensityHour
  rw [hd]
  exact ⟨rfl, by norm_num⟩

/-- C10 witness: the default at a table whose rows all lack intensity. -/
theorem max_intensity_defaults_to_one_witness :
    c10Rows.filterMap (·.intensity_hour) = [] ∧
      (maxIntensityHour c10Rows = 1 ∧ (0 : ℚ) < maxIntensityHour c10Rows) :=
  ⟨rfl, max_intensity_defaults_to_one c10Rows rfl⟩

theorem isPrefixOf_append_self (p B : Str) : p.isPrefixOf (p ++ B) = true := by
  induction p with
  | nil => simp [List.isPrefixOf]
  | cons c t ih => simp [List.isPrefixOf, ih]

theorem findSep_self_append (c0 : Char) (sp B : Str) :
    findSep (c0 :: sp) ((c0 :: sp) ++ B) = some ([], B) := by
  have hpre := isPrefixOf_append_self (c0 :: sp) B
  simp only [List.cons_append] at hpre
  simp only [List.cons_append, findSep, hpre, if_true]
  simp [List.drop_left]

theorem findSep_cons_ne (c0 : Char) (sp : Str) (a : Char) (t : Str) (h : a ≠ c0) :
    findSep (c0 :: sp) (a :: t)
      = match findSep (c0 :: sp) t with
        | none => none
        | some (b, x) => some (a :: b, x) := by
  have hpre : (c0 :: sp).isPrefixOf (a :: t) = false := by
    simp [List.isPrefixOf, beq_iff_eq]
    intro hc
    exact absurd hc.symm h
  simp only [findSep, hpre]
  rfl

theorem findSep_none (c0 : Char) (sp : Str) (B : Str) (hB : c0 ∉ B) :
    findSep (c0 :: sp) B = none := by
  induction B with
  | nil => rfl
  | cons b t ih =>
    have hb : b ≠ c0 := by
      intro he
      exact hB (he ▸ List.mem_cons_self b t)
    rw [findSep_cons_ne c0 sp b t hb,
      ih (fun hm => hB (List.mem_cons_of_mem b hm))]

theorem findSep_append (c0 : Char) (sp A B : Str) (hA : c0 ∉ A) :
    findSep (c0 :: sp) (A ++ (c0 :: sp) ++ B) = some (A, B) := by
  induction A with
  | nil => simpa using findSep_self_append c0 sp B
  | cons a t ih =>
    have ha : a ≠ c0 := by
      intro he
      exact hA (he ▸ List.mem_cons_self a t)
    have ht : c0 ∉ t := fun hm => hA (List.mem_cons_of_mem a hm)
    simp only [List.cons_append]
    have ih2 := ih ht
    simp only [List.cons_append] at ih2
    rw [findSep_cons_ne c0 sp a _ ha, ih2]

theorem splitLoop_of_none (sep s : Str) (fuel : Nat) (hf : fuel ≠ 0)
    (h : findSep sep s = none) : splitLoop sep fuel s = [s] := by
  cases fuel with
  | zero => exact absurd rfl hf
  | succ n => simp [splitLoop, h]

theorem splitStr_pair (c0 : Char) (sp A B : Str) (hA : c0 ∉ A) (hB : c0 ∉ B) :
    splitStr (c0 :: sp) (A ++ (c0 :: sp) ++ B) = [A, B] := by
  unfold splitStr
  simp only [splitLoop, findSep_append c0 sp A B hA]
  have hlen : (A ++ (c0 :: sp) ++ B).length ≠ 0 := by
    simp only [List.length_append, List.length_cons]
    omega
  rw [splitLoop_of_none _ _ _ hlen (findSep_none c0 sp B hB)]

theorem sortPair_swap (a b : Str) : sortPair a b = sortPair b a := by
  unfold sortPair
  rcases le_total a b with h | h
  · by_cases h2 : b ≤ a
    · have he : a = b := le_antisymm h h2
      subst he
      simp
    · rw [if_pos h, if_neg h2]
  · by_cases h2 : a ≤ b
    · have he : a = b := le_antisymm h2 h
      subst he
      simp
    · rw [if_neg h2, if_pos h]

/-- C1: canonical corridor keys are direction agnostic.  For endpoint texts A
and B free of the separator (so the label splits into exactly the two parts A
and B), swapping the endpoints leaves the canonical key unchanged — in the
App.utils variant (single-character separator) and in the corridor search
module variant (whose stored separator literal is the three-character
double-encoded arrow). -/
theorem canonical_key_direction_agnostic (A B : Str)
    (h1 : '↔' ∉ A) (h2 : '↔' ∉ B) (h3 : 'â' ∉ A) (h4 : 'â' ∉ B) :
    canonicalKeyUtil (A ++ sepArrow ++ B) = canonicalKeyUtil (B ++ sepArrow ++ A) ∧
      canonicalKeyCorridor (A ++ sepArrowRaw ++ B)
        = canonicalKeyCorridor (B ++ sepArrowRaw ++ A) := by
  have hsep : sepArrow = ['↔'] := rfl
  have hraw : sepArrowRaw = 'â' :: ['†', '”'] := rfl
  constructor
  · have e1 : splitStr sepArrow (A ++ sepArrow ++ B) = [A, B] := by
      rw [hsep]; exact splitStr_pair '↔' [] A B h1 h2
    have e2 : splitStr sepArrow (B ++ sepArrow ++ A) = [B, A] := by
      rw [hsep]; exact splitStr_pair '↔' [] B A h2 h1
    have hne1 : A ++ sepArrow ++ B ≠ [] := by simp [hsep]
    have hne2 : B ++ sepArrow ++ A ≠ [] := by simp [hsep]
    simp only [canonicalKeyUtil, e1, e2, if_neg hne1, if_neg hne2, List.map]
    rw [sortPair_swap]
  · have e1 : splitStr sepArrowRaw (A ++ sepArrowRaw ++ B) = [A, B] := by
      rw [hraw]; exact splitStr_pair 'â' ['†', '”'] A B h3 h4
    have e2 : splitStr sepArrowRaw (B ++ sepArrowRaw ++ A) = [B, A] := by
      rw [hraw]; exact splitStr_pair 'â' ['†', '”'] B A h4 h3
    have hne1 : A ++ sepArrowRaw ++ B ≠ [] := by simp [hraw]
    have hne2 : B ++ sepArrowRaw ++ A ≠ [] := by simp [hraw]
    simp only [canonicalKeyCorridor, e1, e2, if_neg hne1, if_neg hne2]
    rw [sortPair_swap]

/-- C1 witness: the invariance at the concrete endpoints Midtown and JFK. -/
theorem canonical_key_direction_agnostic_witness :
    ('↔' ∉ "Midtown".toList ∧ '↔' ∉ "JFK".toList ∧
      'â' ∉ "Midtown".toList ∧ 'â' ∉ "JFK".toList) ∧
      (canonicalKeyUtil ("Midtown".toList ++ sepArrow ++ "JFK".toList)
          = canonicalKeyUtil ("JFK".toList ++ sepArrow ++ "Midtown".toList) ∧
        canonicalKeyCorridor ("Midtown".toList ++ sepArrowRaw ++ "JFK".toList)
          = canonicalKeyCorridor ("JFK".toList ++ sepArrowRaw ++ "Midtown".toList)) :=
  ⟨⟨by decide, by decide, by decide, by decide⟩,
    canonical_key_direction_agnostic "Midtown".toList "JFK".toList
      (by decide) (by decide) (by decide) (by decide)⟩

theorem alookup_cUpsert_self {κ : Type} [DecidableEq κ]
    (acc : List (κ × Int)) (k : κ) (v : Int) :
    (alookup (cUpsert acc k v) k).getD 0 = (alookup acc k).getD 0 + v := by
  induction acc with
  | nil => simp [cUpsert, alookup]
  | cons p rest ih =>
    by_cases hk : p.1 = k
    · simp [cUpsert, alookup, hk]
    · simp [cUpsert, alookup, hk, ih]

theorem alookup_cUpsert_ne {κ : Type} [DecidableEq κ]
    (acc : List (κ × Int)) (k k' : κ) (v : Int) (h : k ≠ k') :
    alookup (cUpsert acc k v) k' = alookup acc k' := by
  induction acc with
  | nil => simp [cUpsert, alookup, h]
  | cons p rest ih =>
    by_cases hk : p.1 = k
    · have : ¬ p.1 = k' := fun he => h (hk ▸ he)
      simp [cUpsert, alookup, hk, this, h]
    · by_cases hk' : p.1 = k'
      · simp [cUpsert, alookup, hk, hk', Ne.symm h]
      · simp [cUpsert, alookup, hk, hk', ih]

theorem sumTripsAt_cons (r : TSRow) (rest : List TSRow) (h : Nat) :
    sumTripsAt (r :: rest) h
      = (if r.time_bin = h then r.trip_count else 0) + sumTripsAt rest h := by
  by_cases hr : r.time_bin = h
  · simp [sumTripsAt, List.filter_cons, hr]
  · simp [sumTripsAt, List.filter_cons, hr]

theorem rollup_fold (hh : Nat) (rows : List TSRow) :
    ∀ acc : List (Nat × Int),
      (alookup (rows.foldl (fun a r => cUpsert a r.time_bin r.trip_count) acc) hh).getD 0
        = (alookup acc hh).getD 0 + sumTripsAt rows hh := by
  induction rows with
  | nil => intro acc; simp [sumTripsAt]
  | cons r rest ih =>
    intro acc
    rw [List.foldl_cons, ih, sumTripsAt_cons]
    by_cases hr : r.time_bin = hh
    · rw [if_pos hr, hr, alookup_cUpsert_self]
      omega
    · rw [if_neg hr, alookup_cUpsert_ne acc r.time_bin hh r.trip_count hr]
      omega

theorem alookup_rollup (rows : List TSRow) (hh : Nat) :
    (alookup (rollupByHour rows) hh).getD 0 = sumTripsAt rows hh := by
  have := rollup_fold hh rows []
  simpa [rollupByHour, alookup] using this

/-- C7: for every area entry with a nonempty member-cluster set, the series
built by renderClusterDetail has exactly 24 points whose time bins are 0..23
in order, each point carrying the sum of the trip counts of the rows of the
member clusters at that hour (0 when no row exists for the hour). -/
theorem cluster_detail_dense_series (clusterById : List (Int × List TSRow))
    (members : List Int) (_hne : members ≠ []) :
    (seriesOf clusterById members).length = 24 ∧
      (seriesOf clusterById members).map (·.time_bin) = List.range 24 ∧
      ∀ i, i < 24 →
        (seriesOf clusterById members)[i]?
          = some ⟨i, sumTripsAt (allRowsOf clusterById members) i⟩ := by
  refine ⟨by simp [seriesOf], ?_, ?_⟩
  · simp only [seriesOf, List.map_map]
    have : ((fun p : TSPoint => p.time_bin) ∘ fun h =>
        (⟨h, (alookup (rollupByHour (allRowsOf clusterById members)) h).getD 0⟩ : TSPoint))
        = fun h => h := rfl
    rw [this, List.map_id']
  · intro i hi
    simp only [seriesOf, List.getElem?_map, List.getElem?_range hi]
    simp [alookup_rollup]

/-- The cluster grouping used to witness the dense-series theorem. -/
def c7ClusterById : List (Int × List TSRow) :=
  [(5, [⟨5, 8, 100⟩, ⟨5, 17, 80⟩])]

/-- C7 witness: the dense series at an area with one member cluster holding
data only at hours 8 and 17. -/
theorem cluster_detail_dense_series_witness :
    ([(5 : Int)] ≠ []) ∧
      ((seriesOf c7ClusterById [5]).length = 24 ∧
        (seriesOf c7ClusterById [5]).map (·.time_bin) = List.range 24 ∧
        ∀ i, i < 24 →
          (seriesOf c7ClusterById [5])[i]?
            = some ⟨i, sumTripsAt (allRowsOf c7ClusterById [5]) i⟩) :=
  ⟨by decide, cluster_detail_dense_series c7ClusterById [5] (by decide)⟩

theorem mem_insertDescZD (z x : ZD) (l : List ZD) :
    z ∈ insertDescZD x l ↔ z = x ∨ z ∈ l := by
  induction l with
  | nil => simp [insertDescZD]
  | cons y ys ih =>
    by_cases h : x.degree ≤ y.degree
    · simp only [insertDescZD, if_pos h, List.mem_cons, ih]
      tauto
    · simp only [insertDescZD, if_neg h, List.mem_cons]

theorem mem_sortZDDesc (z : ZD) (l : List ZD) (h : z ∈ sortZDDesc l) : z ∈ l := by
  induction l with
  | nil => rw [sortZDDesc] at h; exact h
  | cons y ys ih =>
    rcases (mem_insertDescZD z y (sortZDDesc ys)).mp h with h1 | h2
    · exact h1 ▸ List.mem_cons_self y ys
    · exact List.mem_cons_of_mem y (ih h2)

theorem pairwise_insertDescZD (x : ZD) (l : List ZD)
    (h : l.Pairwise fun a b => b.degree ≤ a.degree) :
    (insertDescZD x l).Pairwise fun a b => b.degree ≤ a.degree := by
  induction l with
  | nil => simp [insertDescZD]
  | cons y ys ih =>
    rw [List.pairwise_cons] at h
    by_cases hd : x.degree ≤ y.degree
    · rw [insertDescZD, if_pos hd, List.pairwise_cons]
      refine ⟨?_, ih h.2⟩
      intro z hz
      rcases (mem_insertDescZD z x ys).mp hz with h1 | h2
      · exact h1 ▸ hd
      · exact h.1 z h2
    · rw [insertDescZD, if_neg hd, List.pairwise_cons]
      refine ⟨?_, List.pairwise_cons.mpr h⟩
      intro z hz
      rcases List.mem_cons.mp hz with h1 | h2
      · have := Nat.le_of_not_le hd
        exact h1 ▸ this
      · exact le_trans (h.1 z h2) (Nat.le_of_not_le hd)

theorem sorted_sortZDDesc (l : List ZD) :
    (sortZDDesc l).Pairwise fun a b => b.degree ≤ a.degree := by
  induction l with
  | nil => simp [sortZDDesc]
  | cons y ys ih => exact pairwise_insertDescZD y (sortZDDesc ys) ih

theorem ceilPct_mono (n p q : Nat) (h : p ≤ q) : ceilPct n p ≤ ceilPct n q := by
  unfold ceilPct
  have : n * p + 99 ≤ n * q + 99 := by
    have := Nat.mul_le_mul_left n h
    omega
  exact Nat.div_le_div_right this

theorem capForIndex_antitone (n i j : Nat) (h : i ≤ j) :
    capForIndex n j ≤ capForIndex n i := by
  have h1 : ceilPct n 5 ≤ ceilPct n 10 := ceilPct_mono n 5 10 (by omega)
  have h2 : ceilPct n 10 ≤ ceilPct n 20 := ceilPct_mono n 10 20 (by omega)
  have h3 : ceilPct n 20 ≤ ceilPct n 40 := ceilPct_mono n 20 40 (by omega)
  unfold capForIndex
  split_ifs <;> omega

theorem capAssign_lookup (n : Nat) (s : List ZD) :
    ∀ (idx0 : Nat) (z c : Nat), alookup (capAssign n idx0 s) z = some c →
      ∃ j, ∃ hj : j < s.length,
        (s.get ⟨j, hj⟩).id = z ∧ c = capForIndex n (idx0 + j) := by
  induction s with
  | nil => intro idx0 z c hc; simp [capAssign, alookup] at hc
  | cons e rest ih =>
    intro idx0 z c hc
    rw [capAssign, alookup] at hc
    by_cases he : e.id = z
    · rw [if_pos he] at hc
      refine ⟨0, by simp, he, ?_⟩
      have : c = capForIndex n idx0 := by
        have := hc
        injection this with h1
        exact h1.symm
      simpa using this
    · rw [if_neg he] at hc
      obtain ⟨j, hj, hid, hcap⟩ := ih (idx0 + 1) z c hc
      refine ⟨j + 1, by simpa using Nat.succ_lt_succ hj, ?_, ?_⟩
      · simpa using hid
      · rw [hcap]
        congr 1
        omega

/-- C6: display-cap monotonicity in connectivity degree.  For any two zones
given caps by the zoneCapMap ranking, a strictly larger undirected degree
never yields a smaller display cap, under the fixed percentile bands. -/
theorem cap_monotone_in_degree (flows : List FlowRow) (zoneIds : List Nat)
    (z1 z2 c1 c2 : Nat)
    (h1 : alookup (zoneCapMap flows zoneIds) z1 = some c1)
    (h2 : alookup (zoneCapMap flows zoneIds) z2 = some c2)
    (hd : degreeOf flows z2 < degreeOf flows z1) : c2 ≤ c1 := by
  classical
  set l := zoneIds.map fun id => (⟨id, degreeOf flows id⟩ : ZD) with hl
  set arr := sortZDDesc l with harr
  have hform : ∀ e ∈ arr, e.degree = degreeOf flows e.id := by
    intro e he
    have hmem : e ∈ l := mem_sortZDDesc e l (harr ▸ he)
    rw [hl] at hmem
    obtain ⟨id, _, rfl⟩ := List.mem_map.mp hmem
    rfl
  rw [zoneCapMap] at h1 h2
  obtain ⟨j1, hj1, hid1, hc1⟩ := capAssign_lookup arr.length arr 0 z1 c1 h1
  obtain ⟨j2, hj2, hid2, hc2⟩ := capAssign_lookup arr.length arr 0 z2 c2 h2
  simp only [Nat.zero_add] at hc1 hc2
  have hdeg1 : (arr.get ⟨j1, hj1⟩).degree = degreeOf flows z1 := by
    rw [hform _ (List.get_mem arr j1 hj1), hid1]
  have hdeg2 : (arr.get ⟨j2, hj2⟩).degree = degreeOf flows z2 := by
    rw [hform _ (List.get_mem arr j2 hj2), hid2]
  have hsorted := sorted_sortZDDesc l
  rw [← harr] at hsorted
  have hget := List.pairwise_iff_get.mp hsorted
  have hj12 : j1 < j2 := by
    rcases Nat.lt_trichotomy j1 j2 with h | h | h
    · exact h
    · exfalso
      have : (arr.get ⟨j1, hj1⟩) = (arr.get ⟨j2, hj2⟩) := by
        congr 1
        exact Fin.ext h
      rw [this, hdeg2] at hdeg1
      omega
    · exfalso
      have := hget ⟨j2, hj2⟩ ⟨j1, hj1⟩ h
      rw [hdeg1, hdeg2] at this
      omega
  rw [hc1, hc2]
  exact capForIndex_antitone arr.length j1 j2 (Nat.le_of_lt hj12)

/-- The flow table used to witness cap monotonicity: zone 1 touches two
partners, zones 2 and 3 touch only zone 1. -/
def c6Flows : List FlowRow :=
  [⟨1, 2, 0, 10, none⟩, ⟨1, 3, 0, 5, none⟩]

/-- C6 witness: the monotonicity at a concrete flow table and registry. -/
theorem cap_monotone_in_degree_witness :
    alookup (zoneCapMap c6Flows [1, 2, 3]) 1 = some 50 ∧
      alookup (zoneCapMap c6Flows [1, 2, 3]) 2 = some 20 ∧
      degreeOf c6Flows 2 < degreeOf c6Flows 1 ∧ 20 ≤ 50 :=
  ⟨by decide, by decide, by decide,
    cap_monotone_in_degree c6Flows [1, 2, 3] 1 2 50 20
      (by decide) (by decide) (by decide)⟩

/-- C8: empty-corridor handling.  When no semantics entry label collapses to
the requested canonical key, renderCorridorOverview returns (totally, hence
without throwing) the no-clusters-found state with zero edges, for every flow
table and hour — nothing is aggregated or drawn. -/
theorem corridor_overview_empty_safe (semantics : List (Nat × SemInfo))
    (flows : List FlowRow) (hour : Nat) (key : Str)
    (h : ∀ p ∈ semantics, ∀ lab, p.2.label = some lab →
      canonicalKeyCorridor lab ≠ canonicalKeyCorridor key) :
    renderCorridorOverview semantics flows hour key
      = ⟨[], .noClustersFound (canonicalKeyCorridor key)⟩ := by
  have hc : corridorClusterIdsOf semantics (canonicalKeyCorridor key) = [] := by
    rw [corridorClusterIdsOf, List.filterMap_eq_nil_iff]
    intro p hp
    cases hl : p.2.label with
    | none => rfl
    | some lab =>
      by_cases he : lab = []
      · simp [he]
      · simp [he, h p hp lab hl]
  unfold renderCorridorOverview
  dsimp only
  rw [hc]
  simp

/-- A semantics table whose single label does not collapse to the key used
in the empty-corridor witness. -/
def c8Semantics : List (Nat × SemInfo) :=
  [(3, ⟨some "Midtown ↔ JFK".toList⟩)]

/-- C8 witness: the guard at a concrete semantics table, flow table and key
matching nothing. -/
theorem corridor_overview_empty_safe_witness :
    (∀ p ∈ c8Semantics, ∀ lab, p.2.label = some lab →
        canonicalKeyCorridor lab ≠ canonicalKeyCorridor "Foo".toList) ∧
      renderCorridorOverview c8Semantics c2Flows 8 "Foo".toList
        = ⟨[], .noClustersFound (canonicalKeyCorridor "Foo".toList)⟩ :=
  ⟨by decide, corridor_overview_empty_safe c8Semantics c2Flows 8 "Foo".toList (by decide)⟩

theorem step_hover_noop (s : UIState) (e : UIEvent) (hh : isHoverEvent e = true)
    (hflag : s.isAutoZooming = true) : step s e = s := by
  cases e <;> simp_all [step, isHoverEvent]

theorem step_good (s : UIState) (e : UIEvent) (h : goodState s) :
    goodState (step s e) := by
  cases e with
  | zoomToBoroughReset => intro _; right; rfl
  | zoomToBoroughArea => intro _; right; rfl
  | adjustOdZoomToFlows => intro _; right; rfl
  | overviewAutoZoom => intro _; right; rfl
  | hotTransitionEnd =>
    show goodState (interruptHot s)
    unfold goodState interruptHot
    split_ifs
    · simp
    · exact h
  | hotTransitionInterrupt =>
    show goodState (interruptHot s)
    unfold goodState interruptHot
    split_ifs
    · simp
    · exact h
  | odTransitionEnd =>
    show goodState (interruptOd s)
    unfold goodState interruptOd
    split_ifs
    · simp
    · exact h
  | odTransitionInterrupt =>
    show goodState (interruptOd s)
    unfold goodState interruptOd
    split_ifs
    · simp
    · exact h
  | odNodeMouseEnter z =>
    show goodState (if s.isAutoZooming then s
      else ⟨s.isAutoZooming, s.hotPending, s.odPending, some z, true⟩)
    split_ifs with hf
    · exact h
    · intro hflag; exact absurd hflag hf
  | odNodeMouseLeave =>
    show goodState (if s.isAutoZooming then s
      else ⟨s.isAutoZooming, s.hotPending, s.odPending, none, false⟩)
    split_ifs with hf
    · exact h
    · intro hflag; exact absurd hflag hf
  | odEdgeMousemove =>
    show goodState (if s.isAutoZooming then s
      else ⟨s.isAutoZooming, s.hotPending, s.odPending, s.hoveredZone, true⟩)
    split_ifs with hf
    · exact h
    · intro hflag; exact absurd hflag hf
  | odEdgeMouseleave =>
    show goodState (if s.isAutoZooming then s
      else ⟨s.isAutoZooming, s.hotPending, s.odPending, s.hoveredZone, false⟩)
    split_ifs with hf
    · exact h
    · intro hflag; exact absurd hflag hf

theorem run_good (es : List UIEvent) :
    ∀ s, goodState s → goodState (runEvents s es) := by
  induction es with
  | nil => intro s h; exact h
  | cons e rest ih => intro s h; exact ih (step s e) (step_good s e h)

/-- C9: the auto-zoom flag protocol.  Along every event trace from boot,
hover and mouse-move handlers on OD map nodes and edges leave the state
untouched whenever isAutoZooming is set, and since every path that sets the
flag registers end and interrupt callbacks clearing it on the transition it
starts, resolving the in-flight transitions (normally or by interruption)
always leaves the flag cleared — no event sequence leaves it permanently
set. -/
theorem auto_zoom_flag_protocol (es : List UIEvent) :
    (∀ e, isHoverEvent e = true →
        (runEvents initState es).isAutoZooming = true →
        step (runEvents initState es) e = runEvents initState es) ∧
      (runEvents (runEvents initState es)
          [.odTransitionEnd, .hotTransitionEnd]).isAutoZooming = false := by
  have hg : goodState (runEvents initState es) :=
    run_good es initState (fun hflag => absurd hflag (by decide))
  constructor
  · intro e hh hflag
    exact step_hover_noop _ e hh hflag
  · set s := runEvents initState es with hs
    show (step (step s .odTransitionEnd) .hotTransitionEnd).isAutoZooming = false
    by_cases hop : s.odPending
    · simp only [step, interruptOd, interruptHot, hop, if_true]
      split_ifs <;> rfl
    · by_cases hhp : s.hotPending
      · simp [step, interruptOd, interruptHot, hop, hhp]
      · have hflag : s.isAutoZooming = false := by
          cases hf : s.isAutoZooming
          · rfl
          · rcases hg hf with h1 | h2
            · exact absurd h1 hhp
            · exact absurd h2 hop
        simp [step, interruptOd, interruptHot, hop, hhp, hflag]

/-- The event trace used to witness the flag protocol: one OD auto-zoom. -/
def c9Events : List UIEvent := [.adjustOdZoomToFlows]

/-- C9 witness: after an auto-zoom sets the flag, an edge mousemove is a
no-op, and resolving the transitions clears the flag. -/
theorem auto_zoom_flag_protocol_witness :
    step (runEvents initState c9Events) .odEdgeMousemove
        = runEvents initState c9Events ∧
      (runEvents (runEvents initState c9Events)
          [.odTransitionEnd, .hotTransitionEnd]).isAutoZooming = false :=
  ⟨(auto_zoom_flag_protocol c9Events).1 .odEdgeMousemove (by decide) (by decide),
    (auto_zoom_flag_protocol c9Events).2⟩

end TaxiViz
